import Mathlib

/-!
# Verification of the 2048 grid engine

Shallow embedding of the puzzle-grid engine of the game frontend
(`initializeGrid`, `addNewTile`, `move`/`moveRow`, `checkGameOver`).
The grid is a flat row-major list of `GRID_SIZE * GRID_SIZE` natural
numbers.  The two `Math.random()` draws consumed by a tile spawn are
modelled as rational parameters `r1 r2 ∈ [0,1)`.
-/

namespace Game2048

def GRID_SIZE : Nat := 4

def CELL_COUNT : Nat := GRID_SIZE * GRID_SIZE

/-- Direction of a move. -/
inductive Direction | up | down | left | right
deriving DecidableEq

/-- Cell `(i, j)` of the row-major grid: `currentGrid[i * GRID_SIZE + j]`. -/
def getCell (g : List Nat) (i j : Nat) : Nat := g.getD (i * GRID_SIZE + j) 0

/-- Row `i` as extracted by the `direction === 'left' || 'right'` branch of `move`. -/
def rowOf (g : List Nat) (i : Nat) : List Nat :=
  (List.range GRID_SIZE).map fun j => getCell g i j

/-- Column `j` as extracted by the `up`/`down` branch of `move`. -/
def colOf (g : List Nat) (j : Nat) : List Nat :=
  (List.range GRID_SIZE).map fun i => getCell g i j

/-- The merge scan inside `moveRow`: walk the compacted sequence, merging each
adjacent equal pair into a doubled tile, accumulating points, and skipping the
second member of a merged pair (the `i++` in the source loop). Returns the
merged sequence together with the points earned. -/
def mergeScan : List Nat → List Nat × Nat
  | [] => ([], 0)
  | [a] => ([a], 0)
  | a :: b :: rest =>
    if a = b then
      let r := mergeScan rest
      (a * 2 :: r.1, r.2 + a * 2)
    else
      let r := mergeScan (b :: rest)
      (a :: r.1, r.2)

/-- The trailing-zero padding loop `while (merged.length < GRID_SIZE)`. -/
def padTo (l : List Nat) : List Nat := l ++ List.replicate (GRID_SIZE - l.length) 0

/-- `moveRow` from the source: drop zeros, merge-scan, pad to `GRID_SIZE`.
Returns the resulting line together with the points it contributed. -/
def moveRow (row : List Nat) : List Nat × Nat :=
  let filtered := row.filter fun v => v != 0
  let r := mergeScan filtered
  (padTo r.1, r.2)

/-- The line the source writes back for line index `k` in direction `d`:
`moveRow(row)` for left/up, `moveRow(row.reverse()).reverse()` for right/down. -/
def newLine (g : List Nat) (d : Direction) (k : Nat) : List Nat :=
  match d with
  | .left => (moveRow (rowOf g k)).1
  | .right => ((moveRow (rowOf g k).reverse).1).reverse
  | .up => (moveRow (colOf g k)).1
  | .down => ((moveRow (colOf g k).reverse).1).reverse

/-- Points contributed by line `k` of the move. -/
def linePts (g : List Nat) (d : Direction) (k : Nat) : Nat :=
  match d with
  | .left => (moveRow (rowOf g k)).2
  | .right => (moveRow (rowOf g k).reverse).2
  | .up => (moveRow (colOf g k)).2
  | .down => (moveRow (colOf g k).reverse).2

/-- The post-slide/merge (pre-spawn) grid: rows are written back row-major;
for columns, cell `(i, j)` receives entry `i` of processed column `j`. -/
def newGridOf (g : List Nat) (d : Direction) : List Nat :=
  match d with
  | .left | .right => (List.range GRID_SIZE).flatMap fun i => newLine g d i
  | .up | .down =>
      (List.range GRID_SIZE).flatMap fun i =>
        (List.range GRID_SIZE).map fun j => (newLine g d j).getD i 0

/-- Total points accumulated over all lines of the move (the closure variable
`points` in the source). -/
def totalPts (g : List Nat) (d : Direction) : Nat :=
  ((List.range GRID_SIZE).map fun k => linePts g d k).sum

/-- The `moved` flag: some written-back cell differs from the cell it replaces
(`if (newGrid[i * GRID_SIZE + j] !== movedRow[j]) moved = true`). -/
def movedFlag (g : List Nat) (d : Direction) : Bool :=
  match d with
  | .left | .right =>
      (List.range GRID_SIZE).any fun i => (List.range GRID_SIZE).any fun j =>
        getCell g i j != (newLine g d i).getD j 0
  | .up | .down =>
      (List.range GRID_SIZE).any fun j => (List.range GRID_SIZE).any fun i =>
        getCell g i j != (newLine g d j).getD i 0

/-- The value of a spawned tile: `Math.random() < 0.9 ? 2 : 4`. -/
def spawnValue (r2 : ℚ) : Nat := if r2 < 9 / 10 then 2 else 4

/-- Indices of empty cells, in ascending order, as collected by the `forEach`
in `addNewTile`. -/
def emptyCellsOf (g : List Nat) : List Nat :=
  (List.range g.length).filter fun k => g.getD k 0 == 0

/-- `addNewTile`: if an empty cell exists, overwrite the empty cell at index
`emptyCells[Math.floor(r1 * emptyCells.length)]` with the spawned value. -/
def addNewTile (g : List Nat) (r1 r2 : ℚ) : List Nat :=
  let emptyCells := emptyCellsOf g
  if 0 < emptyCells.length then
    let randomIndex := emptyCells.getD (r1 * (emptyCells.length : ℚ)).floor.toNat 0
    g.set randomIndex (spawnValue r2)
  else g

/-- Result of a `move` call: the grid state afterwards, the points earned this
move, and whether anything moved. -/
structure MoveResult where
  grid : List Nat
  points : Nat
  moved : Bool
deriving DecidableEq

/-- `move`: guarded by `gameOver`; applies the slide/merge pass and, only when
the `moved` flag is set, spawns one tile into the resulting grid. When nothing
moved the incoming grid is kept and no spawn occurs. -/
def move (gameOver : Bool) (g : List Nat) (d : Direction) (r1 r2 : ℚ) : MoveResult :=
  if gameOver then ⟨g, 0, false⟩
  else
    let pts := totalPts g d
    if movedFlag g d then ⟨addNewTile (newGridOf g d) r1 r2, pts, true⟩
    else ⟨g, pts, false⟩

/-- `checkGameOver`: false if any cell is 0; otherwise false iff some cell
equals its right neighbour (when `j < GRID_SIZE - 1`) or its lower neighbour
(when `i < GRID_SIZE - 1`). -/
def checkGameOver (g : List Nat) : Bool :=
  if g.contains 0 then false
  else
    (List.range GRID_SIZE).all fun i => (List.range GRID_SIZE).all fun j =>
      !((decide (j < GRID_SIZE - 1) && (getCell g i j == getCell g i (j + 1))) ||
        (decide (i < GRID_SIZE - 1) && (getCell g i j == getCell g (i + 1) j)))

/-- `initializeGrid`: an all-zero grid of `CELL_COUNT` cells with two tiles
spawned, consuming two random draws per spawn. -/
def initializeGrid (r1 r2 r3 r4 : ℚ) : List Nat :=
  addNewTile (addNewTile (List.replicate CELL_COUNT 0) r1 r2) r3 r4

/-- The same initialization code generalized over the cell count, to examine
behaviour on configurations smaller than the fixed `CELL_COUNT = 16`. -/
def initializeGridGen (cellCount : Nat) (r1 r2 r3 r4 : ℚ) : List Nat :=
  addNewTile (addNewTile (List.replicate cellCount 0) r1 r2) r3 r4

end Game2048

namespace Game2048

/-! ## Basic list helpers -/

theorem len_succ_cons (l : List Nat) (n : Nat) (h : l.length = n + 1) :
    ∃ a t, l = a :: t ∧ t.length = n := by
  cases l with
  | nil => simp at h
  | cons a t => exact ⟨a, t, rfl, by simpa using h⟩

theorem list_len4 (l : List Nat) (h : l.length = 4) : ∃ a b c d, l = [a, b, c, d] := by
  obtain ⟨a, l, rfl, h1⟩ := len_succ_cons l 3 (by omega)
  obtain ⟨b, l, rfl, h2⟩ := len_succ_cons l 2 (by omega)
  obtain ⟨c, l, rfl, h3⟩ := len_succ_cons l 1 (by omega)
  obtain ⟨d, l, rfl, h4⟩ := len_succ_cons l 0 (by omega)
  obtain rfl := List.length_eq_zero.mp h4
  exact ⟨a, b, c, d, rfl⟩

theorem list_len16 (l : List Nat) (h : l.length = 16) :
    ∃ a₀ a₁ a₂ a₃ b₀ b₁ b₂ b₃ c₀ c₁ c₂ c₃ d₀ d₁ d₂ d₃,
      l = [a₀, a₁, a₂, a₃, b₀, b₁, b₂, b₃, c₀, c₁, c₂, c₃, d₀, d₁, d₂, d₃] := by
  obtain ⟨a₀, l, rfl, h1⟩ := len_succ_cons l 15 (by omega)
  obtain ⟨a₁, l, rfl, h2⟩ := len_succ_cons l 14 (by omega)
  obtain ⟨a₂, l, rfl, h3⟩ := len_succ_cons l 13 (by omega)
  obtain ⟨a₃, l, rfl, h4⟩ := len_succ_cons l 12 (by omega)
  obtain ⟨b₀, l, rfl, h5⟩ := len_succ_cons l 11 (by omega)
  obtain ⟨b₁, l, rfl, h6⟩ := len_succ_cons l 10 (by omega)
  obtain ⟨b₂, l, rfl, h7⟩ := len_succ_cons l 9 (by omega)
  obtain ⟨b₃, l, rfl, h8⟩ := len_succ_cons l 8 (by omega)
  obtain ⟨c₀, l, rfl, h9⟩ := len_succ_cons l 7 (by omega)
  obtain ⟨c₁, l, rfl, h10⟩ := len_succ_cons l 6 (by omega)
  obtain ⟨c₂, l, rfl, h11⟩ := len_succ_cons l 5 (by omega)
  obtain ⟨c₃, l, rfl, h12⟩ := len_succ_cons l 4 (by omega)
  obtain ⟨d₀, l, rfl, h13⟩ := len_succ_cons l 3 (by omega)
  obtain ⟨d₁, l, rfl, h14⟩ := len_succ_cons l 2 (by omega)
  obtain ⟨d₂, l, rfl, h15⟩ := len_succ_cons l 1 (by omega)
  obtain ⟨d₃, l, rfl, h16⟩ := len_succ_cons l 0 (by omega)
  obtain rfl := List.length_eq_zero.mp h16
  exact ⟨a₀, a₁, a₂, a₃, b₀, b₁, b₂, b₃, c₀, c₁, c₂, c₃, d₀, d₁, d₂, d₃, rfl⟩

theorem range4 : List.range 4 = [0, 1, 2, 3] := rfl

theorem sum_filter_nz (l : List Nat) : (l.filter fun v => v != 0).sum = l.sum := by
  induction l with
  | nil => rfl
  | cons a t ih =>
    by_cases ha : a = 0
    · subst ha; simpa using ih
    · simp [List.filter_cons, ha, ih]

theorem filter_nz_of_nonzero (l : List Nat) (h : ∀ x ∈ l, x ≠ 0) :
    l.filter (fun v => v != 0) = l := by
  induction l with
  | nil => rfl
  | cons a t ih =>
    have ha : a ≠ 0 := h a (by simp)
    simp [List.filter_cons, ha, ih fun x hx => h x (by simp [hx])]


/-! ## Lemmas about the merge scan -/

theorem mergeScan_length_le : (l : List Nat) → (mergeScan l).1.length ≤ l.length
  | [] => Nat.le_refl _
  | [_] => Nat.le_refl _
  | a :: b :: rest => by
    by_cases h : a = b
    · have ih := mergeScan_length_le rest
      simp only [mergeScan, if_pos h, List.length_cons]
      omega
    · have ih := mergeScan_length_le (b :: rest)
      simp only [mergeScan, if_neg h, List.length_cons] at ih ⊢
      omega

theorem mergeScan_sum : (l : List Nat) → (mergeScan l).1.sum = l.sum
  | [] => rfl
  | [_] => rfl
  | a :: b :: rest => by
    by_cases h : a = b
    · have ih := mergeScan_sum rest
      simp only [mergeScan, if_pos h, List.sum_cons]
      subst h
      omega
    · have ih := mergeScan_sum (b :: rest)
      simp only [mergeScan, if_neg h, List.sum_cons] at ih ⊢
      omega

theorem mergeScan_nonzero : (l : List Nat) → (∀ x ∈ l, x ≠ 0) →
    ∀ y ∈ (mergeScan l).1, y ≠ 0
  | [], _, y, hy => by simp [mergeScan] at hy
  | [a], h, y, hy => by
    have hya : y = a := by simpa [mergeScan] using hy
    exact hya ▸ h a (by simp)
  | a :: b :: rest, h, y, hy => by
    by_cases hab : a = b
    · simp only [mergeScan, if_pos hab, List.mem_cons] at hy
      rcases hy with rfl | hy
      · have := h a (by simp); omega
      · exact mergeScan_nonzero rest (fun x hx => h x (by simp [hx])) y hy
    · simp only [mergeScan, if_neg hab, List.mem_cons] at hy
      rcases hy with rfl | hy
      · exact h y (by simp)
      · exact mergeScan_nonzero (b :: rest) (fun x hx => h x (by simp [List.mem_cons] at hx ⊢; tauto)) y hy

theorem mergeScan_fixed_of_pts_zero : (l : List Nat) → (∀ x ∈ l, x ≠ 0) →
    (mergeScan l).2 = 0 → (mergeScan l).1 = l
  | [], _, _ => rfl
  | [_], _, _ => rfl
  | a :: b :: rest, h, hp => by
    by_cases hab : a = b
    · exfalso
      have ha : a ≠ 0 := h a (by simp)
      simp only [mergeScan, if_pos hab] at hp
      omega
    · simp only [mergeScan, if_neg hab] at hp ⊢
      rw [mergeScan_fixed_of_pts_zero (b :: rest) (fun x hx => h x (by simp [List.mem_cons] at hx ⊢; tauto)) hp]

theorem mergeScan_pts_zero_of_length : (l : List Nat) →
    (mergeScan l).1.length = l.length → (mergeScan l).2 = 0
  | [], _ => rfl
  | [_], _ => rfl
  | a :: b :: rest, hl => by
    by_cases hab : a = b
    · exfalso
      have := mergeScan_length_le rest
      simp only [mergeScan, if_pos hab, List.length_cons] at hl
      omega
    · simp only [mergeScan, if_neg hab, List.length_cons] at hl ⊢
      exact mergeScan_pts_zero_of_length (b :: rest) (by simpa using hl)

/-- Tile values: empty, or a power of two that is at least `2`. -/
def IsTile (v : Nat) : Prop := v = 0 ∨ ∃ k, 1 ≤ k ∧ v = 2 ^ k

theorem isTile_double {v : Nat} (h : IsTile v) : IsTile (v * 2) := by
  rcases h with rfl | ⟨k, hk, rfl⟩
  · exact Or.inl rfl
  · exact Or.inr ⟨k + 1, by omega, by ring⟩

theorem mergeScan_tiles : (l : List Nat) → (∀ x ∈ l, IsTile x) →
    ∀ y ∈ (mergeScan l).1, IsTile y
  | [], _, y, hy => by simp [mergeScan] at hy
  | [a], h, y, hy => by
    have hya : y = a := by simpa [mergeScan] using hy
    exact hya ▸ h a (by simp)
  | a :: b :: rest, h, y, hy => by
    by_cases hab : a = b
    · simp only [mergeScan, if_pos hab, List.mem_cons] at hy
      rcases hy with rfl | hy
      · exact isTile_double (h a (by simp))
      · exact mergeScan_tiles rest (fun x hx => h x (by simp [hx])) y hy
    · simp only [mergeScan, if_neg hab, List.mem_cons] at hy
      rcases hy with rfl | hy
      · exact h y (by simp)
      · exact mergeScan_tiles (b :: rest) (fun x hx => h x (by simp [List.mem_cons] at hx ⊢; tauto)) y hy

/-- The merge rule as the spec words it: scan left-to-right; an equal adjacent
pair becomes one tile of double value, its doubled value is added to the points
exactly once, and the scan continues after the pair, so a merge result never
re-merges in the same pass. -/
inductive MergeSpec : List Nat → List Nat → Nat → Prop
  | nil : MergeSpec [] [] 0
  | single (a : Nat) : MergeSpec [a] [a] 0
  | merge (a : Nat) (rest out : List Nat) (p : Nat) :
      MergeSpec rest out p → MergeSpec (a :: a :: rest) (a * 2 :: out) (p + a * 2)
  | keep (a b : Nat) (rest out : List Nat) (p : Nat) :
      a ≠ b → MergeSpec (b :: rest) out p → MergeSpec (a :: b :: rest) (a :: out) p

theorem mergeScan_refines : (l : List Nat) → MergeSpec l (mergeScan l).1 (mergeScan l).2
  | [] => MergeSpec.nil
  | [a] => MergeSpec.single a
  | a :: b :: rest => by
    by_cases hab : a = b
    · subst hab
      simpa only [mergeScan, if_pos rfl] using
        MergeSpec.merge a rest (mergeScan rest).1 (mergeScan rest).2 (mergeScan_refines rest)
    · simpa only [mergeScan, if_neg hab] using
        MergeSpec.keep a b rest (mergeScan (b :: rest)).1 (mergeScan (b :: rest)).2 hab
          (mergeScan_refines (b :: rest))

/-! ## Lemmas about `moveRow` -/

theorem filter_nz_mem_ne {row : List Nat} {x : Nat}
    (hx : x ∈ row.filter fun v => v != 0) : x ≠ 0 := by
  simpa using (List.mem_filter.mp hx).2

theorem moveRow_length {row : List Nat} (h : row.length ≤ GRID_SIZE) :
    (moveRow row).1.length = GRID_SIZE := by
  have h1 := List.length_filter_le (fun v => v != 0) row
  have h2 := mergeScan_length_le (row.filter fun v => v != 0)
  simp only [moveRow, padTo, List.length_append, List.length_replicate]
  omega

theorem moveRow_sum (row : List Nat) : (moveRow row).1.sum = row.sum := by
  simp only [moveRow, padTo, List.sum_append, mergeScan_sum, sum_filter_nz]
  simp

theorem moveRow_filter_nz (row : List Nat) :
    (moveRow row).1.filter (fun v => v != 0) = (mergeScan (row.filter fun v => v != 0)).1 := by
  simp only [moveRow, padTo, List.filter_append]
  rw [filter_nz_of_nonzero _ (mergeScan_nonzero _ fun x hx => filter_nz_mem_ne hx)]
  simp [List.filter_replicate]

theorem moveRow_pts_zero_of_fixed {row : List Nat} (h : (moveRow row).1 = row) :
    (moveRow row).2 = 0 := by
  have hfil := moveRow_filter_nz row
  rw [h] at hfil
  exact mergeScan_pts_zero_of_length _ (by rw [← hfil])

theorem moveRow_perm_of_pts_zero {row : List Nat} (h4 : row.length = GRID_SIZE)
    (h : (moveRow row).2 = 0) : (moveRow row).1.Perm row := by
  have hnz : ∀ x ∈ row.filter (fun v => v != 0), x ≠ 0 := fun x hx => filter_nz_mem_ne hx
  have hfix := mergeScan_fixed_of_pts_zero _ hnz h
  have hperm := List.filter_append_perm (fun v => v != 0) row
  have hlen : (row.filter fun v => v != 0).length +
      (row.filter fun v => !(v != 0)).length = row.length := by
    have := hperm.length_eq
    simpa using this
  have hrep : (row.filter fun v => !(v != 0)) =
      List.replicate (GRID_SIZE - (row.filter fun v => v != 0).length) 0 := by
    have hall : ∀ b ∈ (row.filter fun v => !(v != 0)), b = 0 := by
      intro b hb
      simpa using (List.mem_filter.mp hb).2
    have := List.eq_replicate_length.mpr hall
    rw [this]
    congr 1
    omega
  have : (moveRow row).1 = (row.filter fun v => v != 0) ++
      (row.filter fun v => !(v != 0)) := by
    simp only [moveRow, padTo, hfix]
    rw [hrep]
  rw [this]
  exact hperm

theorem moveRow_zero_mem_of_ne {row : List Nat} (h4 : row.length = GRID_SIZE)
    (h : (moveRow row).1 ≠ row) : 0 ∈ (moveRow row).1 := by
  by_cases hlen : (mergeScan (row.filter fun v => v != 0)).1.length = GRID_SIZE
  · exfalso
    have h1 := List.length_filter_le (fun v => v != 0) row
    have h2 := mergeScan_length_le (row.filter fun v => v != 0)
    have hflen : (row.filter fun v => v != 0).length = row.length := by omega
    have hpts : (mergeScan (row.filter fun v => v != 0)).2 = 0 :=
      mergeScan_pts_zero_of_length _ (by omega)
    have hfix := mergeScan_fixed_of_pts_zero _ (fun x hx => filter_nz_mem_ne hx) hpts
    have hself : row.filter (fun v => v != 0) = row :=
      List.filter_eq_self.mpr (List.filter_length_eq_length.mp hflen)
    apply h
    rw [hself] at hfix
    simp only [moveRow, padTo, hself, hfix, h4]
    simp [GRID_SIZE]
  · have h2 := mergeScan_length_le (row.filter fun v => v != 0)
    have h1 := List.length_filter_le (fun v => v != 0) row
    simp only [moveRow, padTo]
    apply List.mem_append.mpr
    right
    refine List.mem_replicate.mpr ⟨?_, rfl⟩
    simp only [GRID_SIZE] at *
    omega

theorem moveRow_tiles {row : List Nat} (h : ∀ x ∈ row, IsTile x) :
    ∀ y ∈ (moveRow row).1, IsTile y := by
  intro y hy
  simp only [moveRow, padTo] at hy
  rcases List.mem_append.mp hy with hy | hy
  · exact mergeScan_tiles _ (fun x hx => h x (List.mem_of_mem_filter hx)) y hy
  · rw [List.eq_of_mem_replicate hy]
    exact Or.inl rfl

/-! ## Grid-level helpers -/

theorem rowOf_len (g : List Nat) (i : Nat) : (rowOf g i).length = GRID_SIZE := by
  simp [rowOf]

theorem colOf_len (g : List Nat) (j : Nat) : (colOf g j).length = GRID_SIZE := by
  simp [colOf]

theorem newLine_len (g : List Nat) (d : Direction) (k : Nat) :
    (newLine g d k).length = GRID_SIZE := by
  cases d with
  | up => exact moveRow_length (by simp [colOf, GRID_SIZE])
  | down =>
    show ((moveRow (colOf g k).reverse).1).reverse.length = GRID_SIZE
    rw [List.length_reverse]
    exact moveRow_length (by simp [colOf, GRID_SIZE])
  | left => exact moveRow_length (by simp [rowOf, GRID_SIZE])
  | right =>
    show ((moveRow (rowOf g k).reverse).1).reverse.length = GRID_SIZE
    rw [List.length_reverse]
    exact moveRow_length (by simp [rowOf, GRID_SIZE])

theorem rowOf_getD (g : List Nat) (i j : Nat) (hj : j < GRID_SIZE) :
    (rowOf g i).getD j 0 = getCell g i j := by
  have hj4 : j < 4 := hj
  interval_cases j <;> rfl

theorem colOf_getD (g : List Nat) (j i : Nat) (hi : i < GRID_SIZE) :
    (colOf g j).getD i 0 = getCell g i j := by
  have hi4 : i < 4 := hi
  interval_cases i <;> rfl

theorem eq_of_getD4 {l1 l2 : List Nat} (h1 : l1.length = 4) (h2 : l2.length = 4)
    (h : ∀ j, j < 4 → l1.getD j 0 = l2.getD j 0) : l1 = l2 := by
  obtain ⟨a, b, c, d, rfl⟩ := list_len4 l1 h1
  obtain ⟨a2, b2, c2, d2, rfl⟩ := list_len4 l2 h2
  have e0 : a = a2 := by simpa using h 0 (by omega)
  have e1 : b = b2 := by simpa using h 1 (by omega)
  have e2 : c = c2 := by simpa using h 2 (by omega)
  have e3 : d = d2 := by simpa using h 3 (by omega)
  simp [e0, e1, e2, e3]

theorem map_getD_range4 {l : List Nat} (h : l.length = 4) :
    (List.range 4).map (fun i => l.getD i 0) = l := by
  obtain ⟨a, b, c, d, rfl⟩ := list_len4 l h
  rfl

theorem flatMap_range4 (f : Nat → List Nat) :
    (List.range 4).flatMap f = f 0 ++ (f 1 ++ (f 2 ++ f 3)) := by
  show ([0, 1, 2, 3] : List Nat).flatMap f = _
  simp [List.flatMap_cons]

theorem sum_map_range4 (f : Nat → Nat) :
    ((List.range 4).map f).sum = f 0 + f 1 + f 2 + f 3 := by
  show (([0, 1, 2, 3] : List Nat).map f).sum = _
  simp [List.map_cons, List.sum_cons]
  ring

theorem any2_false (p : Nat → Nat → Bool) :
    ((List.range 4).any fun i => (List.range 4).any fun j => p i j) = false ↔
      (∀ i j, i < 4 → j < 4 → p i j = false) := by
  constructor
  · intro h i j hi hj
    by_contra hp
    have hp' : p i j = true := by
      cases hpv : p i j
      · exact absurd hpv hp
      · rfl
    have : ((List.range 4).any fun i => (List.range 4).any fun j => p i j) = true :=
      List.any_eq_true.mpr ⟨i, List.mem_range.mpr hi,
        List.any_eq_true.mpr ⟨j, List.mem_range.mpr hj, hp'⟩⟩
    rw [h] at this
    exact Bool.false_ne_true this
  · intro h
    rw [← Bool.not_eq_true]
    intro hc
    obtain ⟨i, hi, hij⟩ := List.any_eq_true.mp hc
    obtain ⟨j, hj, hp⟩ := List.any_eq_true.mp hij
    rw [h i j (List.mem_range.mp hi) (List.mem_range.mp hj)] at hp
    exact Bool.false_ne_true hp

/-- The line of the grid that `newLine` replaces: the row for horizontal moves,
the column for vertical ones. -/
def lineOf (g : List Nat) (d : Direction) (k : Nat) : List Nat :=
  match d with
  | .left | .right => rowOf g k
  | .up | .down => colOf g k

theorem lineOf_len (g : List Nat) (d : Direction) (k : Nat) :
    (lineOf g d k).length = GRID_SIZE := by
  cases d <;> simp [lineOf, rowOf_len, colOf_len]

theorem transpose_perm (f : Nat → Nat → Nat) :
    ((List.range 4).flatMap fun i => (List.range 4).map fun j => f i j).Perm
      ((List.range 4).flatMap fun j => (List.range 4).map fun i => f i j) := by
  apply List.perm_iff_count.mpr
  intro a
  simp only [show List.range 4 = [0, 1, 2, 3] from rfl, List.flatMap_cons, List.flatMap_nil,
    List.map_cons, List.map_nil, List.append_nil, List.count_append, List.count_cons,
    List.count_nil]
  omega

theorem movedFlag_false_iff (g : List Nat) (d : Direction) :
    movedFlag g d = false ↔ ∀ k, k < GRID_SIZE → newLine g d k = lineOf g d k := by
  cases d with
  | left =>
    rw [show movedFlag g .left = ((List.range 4).any fun i => (List.range 4).any fun j =>
      getCell g i j != (newLine g .left i).getD j 0) from rfl, any2_false]
    constructor
    · intro h k hk
      refine eq_of_getD4 (newLine_len g .left k) (rowOf_len g k) fun j hj => ?_
      have := h k j hk hj
      simp only [lineOf]
      rw [rowOf_getD g k j hj]
      symm
      simpa using this
    · intro h i j hi hj
      rw [h i hi]
      show (getCell g i j != (rowOf g i).getD j 0) = false
      rw [rowOf_getD g i j hj]
      simp
  | right =>
    rw [show movedFlag g .right = ((List.range 4).any fun i => (List.range 4).any fun j =>
      getCell g i j != (newLine g .right i).getD j 0) from rfl, any2_false]
    constructor
    · intro h k hk
      refine eq_of_getD4 (newLine_len g .right k) (rowOf_len g k) fun j hj => ?_
      have := h k j hk hj
      simp only [lineOf]
      rw [rowOf_getD g k j hj]
      symm
      simpa using this
    · intro h i j hi hj
      rw [h i hi]
      show (getCell g i j != (rowOf g i).getD j 0) = false
      rw [rowOf_getD g i j hj]
      simp
  | up =>
    rw [show movedFlag g .up = ((List.range 4).any fun j => (List.range 4).any fun i =>
      getCell g i j != (newLine g .up j).getD i 0) from rfl, any2_false]
    constructor
    · intro h k hk
      refine eq_of_getD4 (newLine_len g .up k) (colOf_len g k) fun i hi => ?_
      have := h k i hk hi
      simp only [lineOf]
      rw [colOf_getD g k i hi]
      symm
      simpa using this
    · intro h j i hj hi
      rw [h j hj]
      show (getCell g i j != (colOf g j).getD i 0) = false
      rw [colOf_getD g j i hi]
      simp
  | down =>
    rw [show movedFlag g .down = ((List.range 4).any fun j => (List.range 4).any fun i =>
      getCell g i j != (newLine g .down j).getD i 0) from rfl, any2_false]
    constructor
    · intro h k hk
      refine eq_of_getD4 (newLine_len g .down k) (colOf_len g k) fun i hi => ?_
      have := h k i hk hi
      simp only [lineOf]
      rw [colOf_getD g k i hi]
      symm
      simpa using this
    · intro h j i hj hi
      rw [h j hj]
      show (getCell g i j != (colOf g j).getD i 0) = false
      rw [colOf_getD g j i hi]
      simp

theorem linePts_zero_of_fixed {g : List Nat} {d : Direction} {k : Nat}
    (h : newLine g d k = lineOf g d k) : linePts g d k = 0 := by
  cases d with
  | left => exact moveRow_pts_zero_of_fixed h
  | up => exact moveRow_pts_zero_of_fixed h
  | right =>
    have h2 : ((moveRow (rowOf g k).reverse).1).reverse = rowOf g k := h
    exact moveRow_pts_zero_of_fixed (by simpa using congrArg List.reverse h2)
  | down =>
    have h2 : ((moveRow (colOf g k).reverse).1).reverse = colOf g k := h
    exact moveRow_pts_zero_of_fixed (by simpa using congrArg List.reverse h2)

theorem totalPts_eq (g : List Nat) (d : Direction) :
    totalPts g d = linePts g d 0 + linePts g d 1 + linePts g d 2 + linePts g d 3 := by
  simp only [totalPts]
  exact sum_map_range4 _

theorem totalPts_zero_of_fixed {g : List Nat} {d : Direction}
    (h : ∀ k, k < GRID_SIZE → newLine g d k = lineOf g d k) : totalPts g d = 0 := by
  rw [totalPts_eq]
  rw [linePts_zero_of_fixed (h 0 (by norm_num [GRID_SIZE])),
    linePts_zero_of_fixed (h 1 (by norm_num [GRID_SIZE])),
    linePts_zero_of_fixed (h 2 (by norm_num [GRID_SIZE])),
    linePts_zero_of_fixed (h 3 (by norm_num [GRID_SIZE]))]

theorem flat_rows_eq (g : List Nat) (h16 : g.length = 16) :
    ((List.range 4).flatMap fun i => rowOf g i) = g := by
  obtain ⟨a₀, a₁, a₂, a₃, b₀, b₁, b₂, b₃, c₀, c₁, c₂, c₃, d₀, d₁, d₂, d₃, rfl⟩ :=
    list_len16 g h16
  rfl

theorem flat_cols_perm (g : List Nat) (h16 : g.length = 16) :
    ((List.range 4).flatMap fun j => colOf g j).Perm g := by
  obtain ⟨a₀, a₁, a₂, a₃, b₀, b₁, b₂, b₃, c₀, c₁, c₂, c₃, d₀, d₁, d₂, d₃, rfl⟩ :=
    list_len16 g h16
  apply List.perm_iff_count.mpr
  intro v
  show List.count v [a₀, b₀, c₀, d₀, a₁, b₁, c₁, d₁, a₂, b₂, c₂, d₂, a₃, b₃, c₃, d₃] = _
  simp only [List.count_cons, List.count_nil]
  omega

theorem newGrid_rows_eq (g : List Nat) {d : Direction} (hd : d = .left ∨ d = .right) :
    newGridOf g d = newLine g d 0 ++ (newLine g d 1 ++ (newLine g d 2 ++ newLine g d 3)) := by
  rcases hd with rfl | rfl <;> exact flatMap_range4 _

theorem newGrid_vert_perm (g : List Nat) {d : Direction} (hd : d = .up ∨ d = .down) :
    (newGridOf g d).Perm
      (newLine g d 0 ++ (newLine g d 1 ++ (newLine g d 2 ++ newLine g d 3))) := by
  obtain ⟨w0, w1, w2, w3, e0⟩ := list_len4 (newLine g d 0) (newLine_len g d 0)
  obtain ⟨x0, x1, x2, x3, e1⟩ := list_len4 (newLine g d 1) (newLine_len g d 1)
  obtain ⟨y0, y1, y2, y3, e2⟩ := list_len4 (newLine g d 2) (newLine_len g d 2)
  obtain ⟨z0, z1, z2, z3, e3⟩ := list_len4 (newLine g d 3) (newLine_len g d 3)
  have hng : newGridOf g d =
      [w0, x0, y0, z0, w1, x1, y1, z1, w2, x2, y2, z2, w3, x3, y3, z3] := by
    rcases hd with rfl | rfl <;>
    · simp only [newGridOf, GRID_SIZE]
      rw [show List.range 4 = [0, 1, 2, 3] from rfl]
      simp only [List.flatMap_cons, List.flatMap_nil, List.map_cons, List.map_nil,
        List.append_nil]
      rw [e0, e1, e2, e3]
      rfl
  rw [hng, e0, e1, e2, e3]
  apply List.perm_iff_count.mpr
  intro v
  simp only [List.count_cons, List.count_append, List.count_nil]
  omega

theorem newLine_sum (g : List Nat) (d : Direction) (k : Nat) :
    (newLine g d k).sum = (lineOf g d k).sum := by
  cases d with
  | left => exact moveRow_sum _
  | up => exact moveRow_sum _
  | right =>
    show ((moveRow (rowOf g k).reverse).1).reverse.sum = _
    rw [List.sum_reverse, moveRow_sum, List.sum_reverse]
    rfl
  | down =>
    show ((moveRow (colOf g k).reverse).1).reverse.sum = _
    rw [List.sum_reverse, moveRow_sum, List.sum_reverse]
    rfl

theorem rows_sum (g : List Nat) (h16 : g.length = 16) :
    (rowOf g 0).sum + (rowOf g 1).sum + (rowOf g 2).sum + (rowOf g 3).sum = g.sum := by
  obtain ⟨a₀, a₁, a₂, a₃, b₀, b₁, b₂, b₃, c₀, c₁, c₂, c₃, d₀, d₁, d₂, d₃, rfl⟩ :=
    list_len16 g h16
  show ([a₀, a₁, a₂, a₃] : List Nat).sum + ([b₀, b₁, b₂, b₃] : List Nat).sum +
      ([c₀, c₁, c₂, c₃] : List Nat).sum + ([d₀, d₁, d₂, d₃] : List Nat).sum = _
  simp only [List.sum_cons, List.sum_nil]
  omega

theorem cols_sum (g : List Nat) (h16 : g.length = 16) :
    (colOf g 0).sum + (colOf g 1).sum + (colOf g 2).sum + (colOf g 3).sum = g.sum := by
  obtain ⟨a₀, a₁, a₂, a₃, b₀, b₁, b₂, b₃, c₀, c₁, c₂, c₃, d₀, d₁, d₂, d₃, rfl⟩ :=
    list_len16 g h16
  show ([a₀, b₀, c₀, d₀] : List Nat).sum + ([a₁, b₁, c₁, d₁] : List Nat).sum +
      ([a₂, b₂, c₂, d₂] : List Nat).sum + ([a₃, b₃, c₃, d₃] : List Nat).sum = _
  simp only [List.sum_cons, List.sum_nil]
  omega

theorem newGrid_sum (g : List Nat) (d : Direction) (h16 : g.length = 16) :
    (newGridOf g d).sum = g.sum := by
  have hsum : (newLine g d 0).sum + ((newLine g d 1).sum + ((newLine g d 2).sum +
      (newLine g d 3).sum)) = g.sum := by
    cases d with
    | left =>
      simp only [newLine_sum]
      have := rows_sum g h16
      simp only [lineOf] at *
      omega
    | right =>
      simp only [newLine_sum]
      have := rows_sum g h16
      simp only [lineOf] at *
      omega
    | up =>
      simp only [newLine_sum]
      have := cols_sum g h16
      simp only [lineOf] at *
      omega
    | down =>
      simp only [newLine_sum]
      have := cols_sum g h16
      simp only [lineOf] at *
      omega
  cases d with
  | left =>
    rw [newGrid_rows_eq g (Or.inl rfl)]
    simpa [List.sum_append] using hsum
  | right =>
    rw [newGrid_rows_eq g (Or.inr rfl)]
    simpa [List.sum_append] using hsum
  | up =>
    rw [(newGrid_vert_perm g (Or.inl rfl)).sum_eq]
    simpa [List.sum_append] using hsum
  | down =>
    rw [(newGrid_vert_perm g (Or.inr rfl)).sum_eq]
    simpa [List.sum_append] using hsum

/-! ## Lemmas about `addNewTile` -/

theorem rat_floor_int (q : ℚ) : q.floor = ⌊q⌋ := rfl

theorem floor_frac_lt {r : ℚ} {n : Nat} (h0 : 0 ≤ r) (h1 : r < 1) (hn : 0 < n) :
    (r * (n : ℚ)).floor.toNat < n := by
  rw [rat_floor_int]
  have hnn : (0:ℚ) < (n:ℚ) := by exact_mod_cast hn
  have hlt : r * (n:ℚ) < (n:ℚ) := by
    calc r * (n:ℚ) < 1 * n := by apply mul_lt_mul_of_pos_right h1 hnn
    _ = n := one_mul _
  have hfl : ⌊r * (n:ℚ)⌋ < (n:ℤ) := by
    apply Int.floor_lt.mpr
    push_cast
    exact hlt
  have hge : (0:ℤ) ≤ ⌊r * (n:ℚ)⌋ := Int.floor_nonneg.mpr (by positivity)
  omega

theorem floor_frac_eq_iff {r : ℚ} {n m : Nat} (hn : 0 < n) (h0 : 0 ≤ r) :
    (r * (n : ℚ)).floor.toNat = m ↔ ((m : ℚ) / n ≤ r ∧ r < ((m : ℚ) + 1) / n) := by
  rw [rat_floor_int]
  have hnn : (0:ℚ) < (n:ℚ) := by exact_mod_cast hn
  have hge : (0:ℤ) ≤ ⌊r * (n:ℚ)⌋ := Int.floor_nonneg.mpr (by positivity)
  constructor
  · intro hm
    have hfl : ⌊r * (n:ℚ)⌋ = (m : ℤ) := by omega
    have h1 := Int.floor_le (r * (n:ℚ))
    have h2 := Int.lt_floor_add_one (r * (n:ℚ))
    rw [hfl] at h1 h2
    constructor
    · rw [div_le_iff₀ hnn]
      exact_mod_cast h1
    · rw [lt_div_iff₀ hnn]
      push_cast at h2 ⊢
      linarith
  · rintro ⟨ha, hb⟩
    have hfl : ⌊r * (n:ℚ)⌋ = (m:ℤ) := by
      apply Int.floor_eq_iff.mpr
      rw [div_le_iff₀ hnn] at ha
      rw [lt_div_iff₀ hnn] at hb
      constructor
      · push_cast
        linarith
      · push_cast
        linarith
    omega

theorem spawnValue_mem (r2 : ℚ) : spawnValue r2 = 2 ∨ spawnValue r2 = 4 := by
  by_cases h : r2 < 9 / 10
  · exact Or.inl (by simp [spawnValue, h])
  · exact Or.inr (by simp [spawnValue, h])

theorem emptyCellsOf_mem {g : List Nat} {k : Nat} :
    k ∈ emptyCellsOf g ↔ k < g.length ∧ g.getD k 0 = 0 := by
  simp [emptyCellsOf, List.mem_filter, List.mem_range]

theorem emptyCellsOf_ne_nil {g : List Nat} (h : 0 ∈ g) : emptyCellsOf g ≠ [] := by
  obtain ⟨k, hk, hget⟩ := List.mem_iff_getElem.mp h
  intro hnil
  have : k ∈ emptyCellsOf g :=
    emptyCellsOf_mem.mpr ⟨hk, by rw [List.getD_eq_getElem g 0 hk, hget]⟩
  rw [hnil] at this
  simp at this

theorem addNewTile_spec {g : List Nat} (r1 r2 : ℚ) (hz : 0 ∈ g) (h0 : 0 ≤ r1) (h1 : r1 < 1) :
    ∃ idx, idx = (emptyCellsOf g).getD (r1 * ((emptyCellsOf g).length : ℚ)).floor.toNat 0 ∧
      idx < g.length ∧ g.getD idx 0 = 0 ∧
      addNewTile g r1 r2 = g.set idx (spawnValue r2) := by
  have hnn := emptyCellsOf_ne_nil hz
  have hlen : 0 < (emptyCellsOf g).length := List.length_pos.mpr hnn
  have hmlt : (r1 * ((emptyCellsOf g).length : ℚ)).floor.toNat < (emptyCellsOf g).length :=
    floor_frac_lt h0 h1 hlen
  have hidx_mem : (emptyCellsOf g).getD (r1 * ((emptyCellsOf g).length : ℚ)).floor.toNat 0 ∈
      emptyCellsOf g := by
    rw [List.getD_eq_getElem _ _ hmlt]
    exact List.getElem_mem hmlt
  obtain ⟨hlt, hzero⟩ := emptyCellsOf_mem.mp hidx_mem
  refine ⟨_, rfl, hlt, hzero, ?_⟩
  simp only [addNewTile, if_pos hlen]

theorem sum_set_zero : (g : List Nat) → (idx : Nat) → idx < g.length → g.getD idx 0 = 0 →
    (v : Nat) → (g.set idx v).sum = g.sum + v
  | a :: t, 0, _, hz, v => by
    have ha : a = 0 := by simpa using hz
    simp only [List.set, List.sum_cons, ha]
    omega
  | a :: t, n + 1, h, hz, v => by
    simp only [List.set, List.sum_cons]
    rw [sum_set_zero t n (by simpa using h) (by simpa using hz) v]
    omega
  | [], idx, h, _, _ => by simp at h

theorem countP_set_zero : (g : List Nat) → (idx : Nat) → idx < g.length → g.getD idx 0 = 0 →
    (v : Nat) → v ≠ 0 →
    ((g.set idx v).countP fun x => x != 0) = (g.countP fun x => x != 0) + 1
  | a :: t, 0, _, hz, v, hv => by
    have ha : a = 0 := by simpa using hz
    simp [List.set, List.countP_cons, ha, hv]
  | a :: t, n + 1, h, hz, v, hv => by
    simp only [List.set, List.countP_cons]
    rw [countP_set_zero t n (by simpa using h) (by simpa using hz) v hv]
    omega
  | [], idx, h, _, _, _ => by simp at h

theorem getD_set_ne (g : List Nat) (idx k v : Nat) (h : k ≠ idx) :
    (g.set idx v).getD k 0 = g.getD k 0 := by
  by_cases hk : k < g.length
  · rw [List.getD_eq_getElem _ _ (by simpa using hk), List.getD_eq_getElem _ _ hk]
    apply List.getElem_set_ne
    omega
  · rw [List.getD_eq_default _ _ (by simpa using Nat.le_of_not_lt hk),
      List.getD_eq_default _ _ (Nat.le_of_not_lt hk)]

/-! ## No-op and terminal-state helpers -/

theorem newGrid_eq_of_fixed (g : List Nat) (d : Direction) (h16 : g.length = 16)
    (h : ∀ k, k < GRID_SIZE → newLine g d k = lineOf g d k) : newGridOf g d = g := by
  have h0 := h 0 (by norm_num [GRID_SIZE])
  have h1 := h 1 (by norm_num [GRID_SIZE])
  have h2 := h 2 (by norm_num [GRID_SIZE])
  have h3 := h 3 (by norm_num [GRID_SIZE])
  cases d with
  | left =>
    rw [newGrid_rows_eq g (Or.inl rfl), h0, h1, h2, h3]
    simp only [lineOf]
    have hfr := flat_rows_eq g h16
    rw [flatMap_range4] at hfr
    exact hfr
  | right =>
    rw [newGrid_rows_eq g (Or.inr rfl), h0, h1, h2, h3]
    simp only [lineOf]
    have hfr := flat_rows_eq g h16
    rw [flatMap_range4] at hfr
    exact hfr
  | up =>
    simp only [newGridOf, GRID_SIZE]
    rw [show List.range 4 = [0, 1, 2, 3] from rfl]
    simp only [List.flatMap_cons, List.flatMap_nil, List.map_cons, List.map_nil,
      List.append_nil]
    rw [h0, h1, h2, h3]
    simp only [lineOf]
    obtain ⟨a₀, a₁, a₂, a₃, b₀, b₁, b₂, b₃, c₀, c₁, c₂, c₃, d₀, d₁, d₂, d₃, rfl⟩ :=
      list_len16 g h16
    rfl
  | down =>
    simp only [newGridOf, GRID_SIZE]
    rw [show List.range 4 = [0, 1, 2, 3] from rfl]
    simp only [List.flatMap_cons, List.flatMap_nil, List.map_cons, List.map_nil,
      List.append_nil]
    rw [h0, h1, h2, h3]
    simp only [lineOf]
    obtain ⟨a₀, a₁, a₂, a₃, b₀, b₁, b₂, b₃, c₀, c₁, c₂, c₃, d₀, d₁, d₂, d₃, rfl⟩ :=
      list_len16 g h16
    rfl

theorem newLine_zero_mem_of_ne (g : List Nat) (d : Direction) (k : Nat)
    (hne : newLine g d k ≠ lineOf g d k) : 0 ∈ newLine g d k := by
  cases d with
  | left => exact moveRow_zero_mem_of_ne (rowOf_len g k) hne
  | up => exact moveRow_zero_mem_of_ne (colOf_len g k) hne
  | right =>
    have hrev : (moveRow (rowOf g k).reverse).1 ≠ (rowOf g k).reverse := by
      intro hc
      apply hne
      show ((moveRow (rowOf g k).reverse).1).reverse = _
      rw [hc, List.reverse_reverse]
      rfl
    have hlen : (rowOf g k).reverse.length = GRID_SIZE := by
      rw [List.length_reverse]; exact rowOf_len g k
    have hz := moveRow_zero_mem_of_ne hlen hrev
    show 0 ∈ ((moveRow (rowOf g k).reverse).1).reverse
    simpa [List.mem_reverse] using hz
  | down =>
    have hrev : (moveRow (colOf g k).reverse).1 ≠ (colOf g k).reverse := by
      intro hc
      apply hne
      show ((moveRow (colOf g k).reverse).1).reverse = _
      rw [hc, List.reverse_reverse]
      rfl
    have hlen : (colOf g k).reverse.length = GRID_SIZE := by
      rw [List.length_reverse]; exact colOf_len g k
    have hz := moveRow_zero_mem_of_ne hlen hrev
    show 0 ∈ ((moveRow (colOf g k).reverse).1).reverse
    simpa [List.mem_reverse] using hz

theorem newGrid_zero_mem_of_moved (g : List Nat) (d : Direction)
    (h : movedFlag g d = true) : 0 ∈ newGridOf g d := by
  have hnot : ¬ ∀ k, k < GRID_SIZE → newLine g d k = lineOf g d k := by
    intro hall
    rw [(movedFlag_false_iff g d).mpr hall] at h
    exact Bool.false_ne_true h
  push_neg at hnot
  obtain ⟨k, hk, hne⟩ := hnot
  have hz := newLine_zero_mem_of_ne g d k hne
  have hk4 : k < 4 := hk
  cases d with
  | left =>
    rw [newGrid_rows_eq g (Or.inl rfl)]
    interval_cases k <;> simp [List.mem_append, hz]
  | right =>
    rw [newGrid_rows_eq g (Or.inr rfl)]
    interval_cases k <;> simp [List.mem_append, hz]
  | up =>
    rw [(newGrid_vert_perm g (Or.inl rfl)).mem_iff]
    interval_cases k <;> simp [List.mem_append, hz]
  | down =>
    rw [(newGrid_vert_perm g (Or.inr rfl)).mem_iff]
    interval_cases k <;> simp [List.mem_append, hz]

theorem newLine_perm_of_pts_zero (g : List Nat) (d : Direction) (k : Nat)
    (h : linePts g d k = 0) : (newLine g d k).Perm (lineOf g d k) := by
  cases d with
  | left => exact moveRow_perm_of_pts_zero (rowOf_len g k) h
  | up => exact moveRow_perm_of_pts_zero (colOf_len g k) h
  | right =>
    have hlen : (rowOf g k).reverse.length = GRID_SIZE := by
      rw [List.length_reverse]; exact rowOf_len g k
    have hp : ((moveRow (rowOf g k).reverse).1).Perm (rowOf g k).reverse :=
      moveRow_perm_of_pts_zero hlen h
    show (((moveRow (rowOf g k).reverse).1).reverse).Perm (rowOf g k)
    exact (List.reverse_perm _).trans (hp.trans (List.reverse_perm _))
  | down =>
    have hlen : (colOf g k).reverse.length = GRID_SIZE := by
      rw [List.length_reverse]; exact colOf_len g k
    have hp : ((moveRow (colOf g k).reverse).1).Perm (colOf g k).reverse :=
      moveRow_perm_of_pts_zero hlen h
    show (((moveRow (colOf g k).reverse).1).reverse).Perm (colOf g k)
    exact (List.reverse_perm _).trans (hp.trans (List.reverse_perm _))

theorem newGrid_perm_of_pts_zero (g : List Nat) (d : Direction) (h16 : g.length = 16)
    (hpts : totalPts g d = 0) : (newGridOf g d).Perm g := by
  have hline : ∀ k, linePts g d k = 0 → (newLine g d k).Perm (lineOf g d k) :=
    fun k => newLine_perm_of_pts_zero g d k
  have hsplit := totalPts_eq g d
  have hp0 : linePts g d 0 = 0 := by omega
  have hp1 : linePts g d 1 = 0 := by omega
  have hp2 : linePts g d 2 = 0 := by omega
  have hp3 : linePts g d 3 = 0 := by omega
  have happ : (newLine g d 0 ++ (newLine g d 1 ++ (newLine g d 2 ++ newLine g d 3))).Perm
      (lineOf g d 0 ++ (lineOf g d 1 ++ (lineOf g d 2 ++ lineOf g d 3))) :=
    ((hline 0 hp0).append ((hline 1 hp1).append ((hline 2 hp2).append (hline 3 hp3))))
  cases d with
  | left =>
    rw [newGrid_rows_eq g (Or.inl rfl)]
    refine happ.trans ?_
    simp only [lineOf]
    have hfr := flat_rows_eq g h16
    rw [flatMap_range4] at hfr
    exact hfr ▸ List.Perm.refl _
  | right =>
    rw [newGrid_rows_eq g (Or.inr rfl)]
    refine happ.trans ?_
    simp only [lineOf]
    have hfr := flat_rows_eq g h16
    rw [flatMap_range4] at hfr
    exact hfr ▸ List.Perm.refl _
  | up =>
    refine (newGrid_vert_perm g (Or.inl rfl)).trans (happ.trans ?_)
    simp only [lineOf]
    have hfc := flat_cols_perm g h16
    rw [flatMap_range4] at hfc
    exact hfc
  | down =>
    refine (newGrid_vert_perm g (Or.inr rfl)).trans (happ.trans ?_)
    simp only [lineOf]
    have hfc := flat_cols_perm g h16
    rw [flatMap_range4] at hfc
    exact hfc

/-! ## Terminal-state characterization -/

/-- Spec-side predicate: the grid contains no zero-valued cell. -/
def NoZeroCell (g : List Nat) : Prop := ∀ k, k < CELL_COUNT → g.getD k 0 ≠ 0

/-- Spec-side predicate: no two horizontally- or vertically-adjacent cells hold
equal values (diagonal adjacency is not constrained). -/
def NoAdjacentEqual (g : List Nat) : Prop :=
  ∀ i j, i < GRID_SIZE → j < GRID_SIZE →
    (j + 1 < GRID_SIZE → getCell g i j ≠ getCell g i (j + 1)) ∧
    (i + 1 < GRID_SIZE → getCell g i j ≠ getCell g (i + 1) j)

theorem all2_true (p : Nat → Nat → Bool) :
    ((List.range 4).all fun i => (List.range 4).all fun j => p i j) = true ↔
      ∀ i j, i < 4 → j < 4 → p i j = true := by
  simp only [List.all_eq_true, List.mem_range]
  constructor
  · intro h i j hi hj
    exact h i hi j hj
  · intro h i hi j hj
    exact h i j hi hj

theorem gameOverBody_iff (g : List Nat) (i j : Nat) :
    ((!((decide (j < GRID_SIZE - 1) && (getCell g i j == getCell g i (j + 1))) ||
        (decide (i < GRID_SIZE - 1) && (getCell g i j == getCell g (i + 1) j)))) = true) ↔
      ((j + 1 < GRID_SIZE → getCell g i j ≠ getCell g i (j + 1)) ∧
       (i + 1 < GRID_SIZE → getCell g i j ≠ getCell g (i + 1) j)) := by
  simp only [Bool.not_eq_true', Bool.or_eq_false_iff, Bool.and_eq_false_iff,
    decide_eq_false_iff_not, beq_eq_false_iff_ne, ne_eq, GRID_SIZE]
  constructor
  · rintro ⟨h1, h2⟩
    constructor
    · intro hj
      rcases h1 with h1 | h1
      · omega
      · exact h1
    · intro hi
      rcases h2 with h2 | h2
      · omega
      · exact h2
  · rintro ⟨h1, h2⟩
    constructor
    · by_cases hj : j < 3
      · exact Or.inr (h1 (by omega))
      · exact Or.inl hj
    · by_cases hi : i < 3
      · exact Or.inr (h2 (by omega))
      · exact Or.inl hi

theorem checkGameOver_iff (g : List Nat) (h16 : g.length = CELL_COUNT) :
    checkGameOver g = true ↔ NoZeroCell g ∧ NoAdjacentEqual g := by
  have hcc : CELL_COUNT = 16 := rfl
  unfold checkGameOver
  by_cases hc : g.contains 0
  · rw [if_pos hc]
    have hmem : (0 : Nat) ∈ g := by simpa using hc
    obtain ⟨k, hk, hget⟩ := List.mem_iff_getElem.mp hmem
    constructor
    · intro hcontr
      exact absurd hcontr (by simp)
    · rintro ⟨hnz, _⟩
      exfalso
      apply hnz k (by omega)
      rw [List.getD_eq_getElem g 0 hk, hget]
  · rw [if_neg hc]
    have hnz : NoZeroCell g := by
      intro k hk hzero
      apply hc
      have hk' : k < g.length := by omega
      rw [List.getD_eq_getElem g 0 hk'] at hzero
      have : (0 : Nat) ∈ g := hzero ▸ List.getElem_mem hk'
      simpa using this
    simp only [show GRID_SIZE = 4 from rfl]
    rw [all2_true]
    constructor
    · intro h
      refine ⟨hnz, fun i j hi hj => ?_⟩
      exact (gameOverBody_iff g i j).mp (h i j hi hj)
    · rintro ⟨_, hadj⟩ i j hi hj
      exact (gameOverBody_iff g i j).mpr (hadj i j hi hj)

theorem getCell_ne_zero {g : List Nat} (hnz : NoZeroCell g) {i j : Nat}
    (hi : i < 4) (hj : j < 4) : getCell g i j ≠ 0 := by
  have := hnz (i * GRID_SIZE + j) (by simp only [GRID_SIZE, CELL_COUNT]; omega)
  exact this

theorem moveRow_fixed4 (a b c d : Nat) (h1 : a ≠ b) (h2 : b ≠ c) (h3 : c ≠ d)
    (ha : a ≠ 0) (hb : b ≠ 0) (hc : c ≠ 0) (hd : d ≠ 0) :
    moveRow [a, b, c, d] = ([a, b, c, d], 0) := by
  have hfil : [a, b, c, d].filter (fun v => v != 0) = [a, b, c, d] := by
    apply filter_nz_of_nonzero
    intro x hx
    simp only [List.mem_cons, List.not_mem_nil, or_false] at hx
    rcases hx with rfl | rfl | rfl | rfl <;> assumption
  have hms : mergeScan [a, b, c, d] = ([a, b, c, d], 0) := by
    simp [mergeScan, h1, h2, h3]
  show (padTo (mergeScan ([a, b, c, d].filter fun v => v != 0)).1,
    (mergeScan ([a, b, c, d].filter fun v => v != 0)).2) = _
  rw [hfil, hms]
  rfl

theorem lines_fixed_of_terminal {g : List Nat}
    (hnz : NoZeroCell g) (hadj : NoAdjacentEqual g) (d : Direction) (k : Nat)
    (hk : k < GRID_SIZE) : newLine g d k = lineOf g d k := by
  have hk4 : k < 4 := hk
  have hrow : rowOf g k = [getCell g k 0, getCell g k 1, getCell g k 2, getCell g k 3] := rfl
  have hcol : colOf g k = [getCell g 0 k, getCell g 1 k, getCell g 2 k, getCell g 3 k] := rfl
  cases d with
  | left =>
    show (moveRow (rowOf g k)).1 = rowOf g k
    rw [hrow, moveRow_fixed4 _ _ _ _
      ((hadj k 0 hk4 (by decide)).1 (by norm_num [GRID_SIZE]))
      ((hadj k 1 hk4 (by decide)).1 (by norm_num [GRID_SIZE]))
      ((hadj k 2 hk4 (by decide)).1 (by norm_num [GRID_SIZE]))
      (getCell_ne_zero hnz hk4 (by decide)) (getCell_ne_zero hnz hk4 (by decide))
      (getCell_ne_zero hnz hk4 (by decide)) (getCell_ne_zero hnz hk4 (by decide))]
  | right =>
    show ((moveRow (rowOf g k).reverse).1).reverse = rowOf g k
    have hrev : (rowOf g k).reverse =
        [getCell g k 3, getCell g k 2, getCell g k 1, getCell g k 0] := by
      rw [hrow]; rfl
    rw [hrev, moveRow_fixed4 _ _ _ _
      (Ne.symm ((hadj k 2 hk4 (by decide)).1 (by norm_num [GRID_SIZE])))
      (Ne.symm ((hadj k 1 hk4 (by decide)).1 (by norm_num [GRID_SIZE])))
      (Ne.symm ((hadj k 0 hk4 (by decide)).1 (by norm_num [GRID_SIZE])))
      (getCell_ne_zero hnz hk4 (by decide)) (getCell_ne_zero hnz hk4 (by decide))
      (getCell_ne_zero hnz hk4 (by decide)) (getCell_ne_zero hnz hk4 (by decide))]
    rw [hrow]
    rfl
  | up =>
    show (moveRow (colOf g k)).1 = colOf g k
    rw [hcol, moveRow_fixed4 _ _ _ _
      ((hadj 0 k (by decide) hk4).2 (by norm_num [GRID_SIZE]))
      ((hadj 1 k (by decide) hk4).2 (by norm_num [GRID_SIZE]))
      ((hadj 2 k (by decide) hk4).2 (by norm_num [GRID_SIZE]))
      (getCell_ne_zero hnz (by decide) hk4) (getCell_ne_zero hnz (by decide) hk4)
      (getCell_ne_zero hnz (by decide) hk4) (getCell_ne_zero hnz (by decide) hk4)]
  | down =>
    show ((moveRow (colOf g k).reverse).1).reverse = colOf g k
    have hrev : (colOf g k).reverse =
        [getCell g 3 k, getCell g 2 k, getCell g 1 k, getCell g 0 k] := by
      rw [hcol]; rfl
    rw [hrev, moveRow_fixed4 _ _ _ _
      (Ne.symm ((hadj 2 k (by decide) hk4).2 (by norm_num [GRID_SIZE])))
      (Ne.symm ((hadj 1 k (by decide) hk4).2 (by norm_num [GRID_SIZE])))
      (Ne.symm ((hadj 0 k (by decide) hk4).2 (by norm_num [GRID_SIZE])))
      (getCell_ne_zero hnz (by decide) hk4) (getCell_ne_zero hnz (by decide) hk4)
      (getCell_ne_zero hnz (by decide) hk4) (getCell_ne_zero hnz (by decide) hk4)]
    rw [hcol]
    rfl

theorem move_of_not_moved (b : Bool) (g : List Nat) (d : Direction) (r1 r2 : ℚ)
    (hmf : movedFlag g d = false) : move b g d r1 r2 = ⟨g, 0, false⟩ := by
  cases b with
  | true => rfl
  | false =>
    have hfix := (movedFlag_false_iff g d).mp hmf
    have hpts := totalPts_zero_of_fixed hfix
    simp [move, hmf, hpts]

/-! ## Value-invariant helpers -/

theorem getD_tile {g : List Nat} (h : ∀ v ∈ g, IsTile v) (k : Nat) : IsTile (g.getD k 0) := by
  by_cases hk : k < g.length
  · rw [List.getD_eq_getElem g 0 hk]
    exact h _ (List.getElem_mem hk)
  · rw [List.getD_eq_default g 0 (Nat.le_of_not_lt hk)]
    exact Or.inl rfl

theorem rowOf_tiles {g : List Nat} (h : ∀ v ∈ g, IsTile v) (i : Nat) :
    ∀ v ∈ rowOf g i, IsTile v := by
  intro v hv
  simp only [rowOf, List.mem_map] at hv
  obtain ⟨j, _, rfl⟩ := hv
  exact getD_tile h _

theorem colOf_tiles {g : List Nat} (h : ∀ v ∈ g, IsTile v) (j : Nat) :
    ∀ v ∈ colOf g j, IsTile v := by
  intro v hv
  simp only [colOf, List.mem_map] at hv
  obtain ⟨i, _, rfl⟩ := hv
  exact getD_tile h _

theorem newLine_tiles {g : List Nat} (h : ∀ v ∈ g, IsTile v) (d : Direction) (k : Nat) :
    ∀ v ∈ newLine g d k, IsTile v := by
  cases d with
  | left => exact moveRow_tiles (rowOf_tiles h k)
  | up => exact moveRow_tiles (colOf_tiles h k)
  | right =>
    intro v hv
    have : v ∈ (moveRow (rowOf g k).reverse).1 := by
      simpa [newLine, List.mem_reverse] using hv
    exact moveRow_tiles (fun x hx => rowOf_tiles h k x (List.mem_reverse.mp hx)) v this
  | down =>
    intro v hv
    have : v ∈ (moveRow (colOf g k).reverse).1 := by
      simpa [newLine, List.mem_reverse] using hv
    exact moveRow_tiles (fun x hx => colOf_tiles h k x (List.mem_reverse.mp hx)) v this

theorem newGrid_len (g : List Nat) (d : Direction) :
    (newGridOf g d).length = CELL_COUNT := by
  have hcc : CELL_COUNT = 16 := rfl
  cases d with
  | left =>
    rw [newGrid_rows_eq g (Or.inl rfl)]
    simp [List.length_append, newLine_len, GRID_SIZE, hcc]
  | right =>
    rw [newGrid_rows_eq g (Or.inr rfl)]
    simp [List.length_append, newLine_len, GRID_SIZE, hcc]
  | up =>
    rw [(newGrid_vert_perm g (Or.inl rfl)).length_eq]
    simp [List.length_append, newLine_len, GRID_SIZE, hcc]
  | down =>
    rw [(newGrid_vert_perm g (Or.inr rfl)).length_eq]
    simp [List.length_append, newLine_len, GRID_SIZE, hcc]

theorem newGrid_tiles {g : List Nat} (h : ∀ v ∈ g, IsTile v) (d : Direction) :
    ∀ v ∈ newGridOf g d, IsTile v := by
  have hmem : ∀ v ∈ (newLine g d 0 ++ (newLine g d 1 ++ (newLine g d 2 ++ newLine g d 3))),
      IsTile v := by
    intro v hv
    simp only [List.mem_append] at hv
    rcases hv with hv | hv | hv | hv
    · exact newLine_tiles h d 0 v hv
    · exact newLine_tiles h d 1 v hv
    · exact newLine_tiles h d 2 v hv
    · exact newLine_tiles h d 3 v hv
  cases d with
  | left =>
    rw [newGrid_rows_eq g (Or.inl rfl)]
    exact hmem
  | right =>
    rw [newGrid_rows_eq g (Or.inr rfl)]
    exact hmem
  | up =>
    intro v hv
    exact hmem v ((newGrid_vert_perm g (Or.inl rfl)).mem_iff.mp hv)
  | down =>
    intro v hv
    exact hmem v ((newGrid_vert_perm g (Or.inr rfl)).mem_iff.mp hv)

theorem addNewTile_length (g : List Nat) (r1 r2 : ℚ) :
    (addNewTile g r1 r2).length = g.length := by
  simp only [addNewTile]
  split
  · simp [List.length_set]
  · rfl

theorem addNewTile_tiles {g : List Nat} (h : ∀ v ∈ g, IsTile v) (r1 r2 : ℚ) :
    ∀ v ∈ addNewTile g r1 r2, IsTile v := by
  intro v hv
  simp only [addNewTile] at hv
  split at hv
  · rcases List.mem_or_eq_of_mem_set hv with hv | rfl
    · exact h v hv
    · rcases spawnValue_mem r2 with h2 | h2 <;> rw [h2]
      · exact Or.inr ⟨1, by omega, rfl⟩
      · exact Or.inr ⟨2, by omega, rfl⟩
  · exact h v hv

/-- Grids reachable from `initializeGrid` by arbitrary `move` calls, every
random draw lying in `[0,1)` as `Math.random` guarantees. -/
inductive Reachable : List Nat → Prop
  | init (r1 r2 r3 r4 : ℚ) (h1 : 0 ≤ r1) (h2 : r1 < 1) (h3 : 0 ≤ r2) (h4 : r2 < 1)
      (h5 : 0 ≤ r3) (h6 : r3 < 1) (h7 : 0 ≤ r4) (h8 : r4 < 1) :
      Reachable (initializeGrid r1 r2 r3 r4)
  | step (g : List Nat) (b : Bool) (d : Direction) (r1 r2 : ℚ)
      (h1 : 0 ≤ r1) (h2 : r1 < 1) (h3 : 0 ≤ r2) (h4 : r2 < 1)
      (hg : Reachable g) : Reachable (move b g d r1 r2).grid

/-! ## Claim theorems -/

/-- C1 counterexample: on the grid whose first row is `[4,2,2,4]` (all other
cells zero), a move right does NOT produce the row `[4,4,4,0]` claimed by the
spec scenario: the code packs tiles toward the right edge. -/
theorem c1_scenario3_counterexample :
    rowOf (newGridOf ([4, 2, 2, 4] ++ List.replicate 12 0) .right) 0 ≠ [4, 4, 4, 0] := by
  decide

/-- C1 (amended): on that grid a move right produces row 0 equal to
`[0,4,4,4]` (tiles packed toward the right edge), with 4 points earned and the
moved flag true. -/
theorem c1_scenario3_amended :
    rowOf (newGridOf ([4, 2, 2, 4] ++ List.replicate 12 0) .right) 0 = [0, 4, 4, 4] ∧
    totalPts ([4, 2, 2, 4] ++ List.replicate 12 0) .right = 4 ∧
    movedFlag ([4, 2, 2, 4] ++ List.replicate 12 0) .right = true := by
  decide

/-- C2: `checkGameOver` returns true iff the grid contains no zero-valued cell
and no two horizontally- or vertically-adjacent cells hold equal values; the
predicate never involves diagonal neighbours. -/
theorem c2_terminal_iff (g : List Nat) (h16 : g.length = CELL_COUNT) :
    checkGameOver g = true ↔ NoZeroCell g ∧ NoAdjacentEqual g :=
  checkGameOver_iff g h16

theorem c2_terminal_iff_witness :
    ([2, 4, 2, 4, 4, 2, 4, 2, 2, 4, 2, 4, 4, 2, 4, 2] : List Nat).length = CELL_COUNT ∧
    (checkGameOver [2, 4, 2, 4, 4, 2, 4, 2, 2, 4, 2, 4, 4, 2, 4, 2] = true ↔
      NoZeroCell [2, 4, 2, 4, 4, 2, 4, 2, 2, 4, 2, 4, 4, 2, 4, 2] ∧
      NoAdjacentEqual [2, 4, 2, 4, 4, 2, 4, 2, 2, 4, 2, 4, 4, 2, 4, 2]) :=
  ⟨by decide, c2_terminal_iff _ (by decide)⟩

/-- C3: when the slide/merge pass changes no cell (the moved flag is false),
`move` returns moved=false, zero points, the grid unchanged, and spawns no
tile; the pre-spawn pass output itself equals the input grid. -/
theorem c3_noop_move (g : List Nat) (d : Direction) (r1 r2 : ℚ) (h16 : g.length = 16)
    (hmf : movedFlag g d = false) :
    move false g d r1 r2 = ⟨g, 0, false⟩ ∧ newGridOf g d = g :=
  ⟨move_of_not_moved false g d r1 r2 hmf,
   newGrid_eq_of_fixed g d h16 ((movedFlag_false_iff g d).mp hmf)⟩

theorem c3_noop_move_witness :
    ([2, 4, 2, 4, 4, 2, 4, 2, 2, 4, 2, 4, 4, 2, 4, 2] : List Nat).length = 16 ∧
    movedFlag [2, 4, 2, 4, 4, 2, 4, 2, 2, 4, 2, 4, 4, 2, 4, 2] .left = false ∧
    (move false [2, 4, 2, 4, 4, 2, 4, 2, 2, 4, 2, 4, 4, 2, 4, 2] .left 0 0 =
        ⟨[2, 4, 2, 4, 4, 2, 4, 2, 2, 4, 2, 4, 4, 2, 4, 2], 0, false⟩ ∧
      newGridOf [2, 4, 2, 4, 4, 2, 4, 2, 2, 4, 2, 4, 4, 2, 4, 2] .left =
        [2, 4, 2, 4, 4, 2, 4, 2, 2, 4, 2, 4, 4, 2, 4, 2]) :=
  ⟨by decide, by decide, c3_noop_move _ _ 0 0 (by decide) (by decide)⟩

/-- C5: the merge scan of every move (`moveRow` feeds the zero-free compaction
of the line to `mergeScan`) satisfies the spec's merge rule `MergeSpec`: each
adjacent equal pair of value `v` becomes one tile `2v`, adds `2v` to the move's
points exactly once, and the scan resumes after the pair, so a freshly created
tile never re-merges with a subsequent tile in the same pass. -/
theorem c5_merge_arithmetic (row : List Nat) :
    MergeSpec (row.filter fun v => v != 0) (mergeScan (row.filter fun v => v != 0)).1
      (moveRow row).2 :=
  mergeScan_refines _

/-- C9: the terminal state is absorbing: on a grid satisfying `checkGameOver`,
a move in any direction (under either value of the gameOver guard) returns the
grid unchanged, zero points, moved=false, and spawns no tile. -/
theorem c9_terminal_absorbing (g : List Nat) (b : Bool) (d : Direction) (r1 r2 : ℚ)
    (h16 : g.length = CELL_COUNT) (hterm : checkGameOver g = true) :
    move b g d r1 r2 = ⟨g, 0, false⟩ := by
  obtain ⟨hnz, hadj⟩ := (checkGameOver_iff g h16).mp hterm
  have hfix : ∀ k, k < GRID_SIZE → newLine g d k = lineOf g d k :=
    fun k hk => lines_fixed_of_terminal hnz hadj d k hk
  exact move_of_not_moved b g d r1 r2 ((movedFlag_false_iff g d).mpr hfix)

theorem c9_terminal_absorbing_witness :
    ([2, 4, 8, 16, 4, 8, 16, 32, 2, 4, 8, 16, 4, 8, 16, 32] : List Nat).length = CELL_COUNT ∧
    checkGameOver [2, 4, 8, 16, 4, 8, 16, 32, 2, 4, 8, 16, 4, 8, 16, 32] = true ∧
    move false [2, 4, 8, 16, 4, 8, 16, 32, 2, 4, 8, 16, 4, 8, 16, 32] .up 0 0 =
      ⟨[2, 4, 8, 16, 4, 8, 16, 32, 2, 4, 8, 16, 4, 8, 16, 32], 0, false⟩ :=
  ⟨by decide, by decide, c9_terminal_absorbing _ false .up 0 0 (by decide) (by decide)⟩

/-- C7: a move with moved=true but zero points (a pure slide) preserves the
multiset of non-zero cell values between the pre-move grid and the pre-spawn
output of the slide pass: tiles only relocate. -/
theorem c7_slide_conservation (g : List Nat) (d : Direction) (r1 r2 : ℚ)
    (h16 : g.length = 16)
    (hmv : (move false g d r1 r2).moved = true)
    (hpts : (move false g d r1 r2).points = 0) :
    (↑((newGridOf g d).filter fun v => v != 0) : Multiset Nat) =
      (↑(g.filter fun v => v != 0) : Multiset Nat) := by
  have hp : totalPts g d = 0 := by
    by_cases hm : movedFlag g d <;> simpa [move, hm] using hpts
  exact Quot.sound ((newGrid_perm_of_pts_zero g d h16 hp).filter fun v => v != 0)

theorem c7_slide_conservation_witness :
    ([0, 2, 0, 0, 0, 0, 0, 0, 0, 0, 0, 0, 0, 0, 0, 4] : List Nat).length = 16 ∧
    (move false [0, 2, 0, 0, 0, 0, 0, 0, 0, 0, 0, 0, 0, 0, 0, 4] .left 0 0).moved = true ∧
    (move false [0, 2, 0, 0, 0, 0, 0, 0, 0, 0, 0, 0, 0, 0, 0, 4] .left 0 0).points = 0 ∧
    (↑((newGridOf [0, 2, 0, 0, 0, 0, 0, 0, 0, 0, 0, 0, 0, 0, 0, 4] .left).filter
        fun v => v != 0) : Multiset Nat) =
      (↑(([0, 2, 0, 0, 0, 0, 0, 0, 0, 0, 0, 0, 0, 0, 0, 4] : List Nat).filter
        fun v => v != 0) : Multiset Nat) :=
  ⟨by decide, by decide, by decide, c7_slide_conservation _ _ 0 0 (by decide) (by decide)
    (by decide)⟩

/-- C10: the slide/merge pass preserves the total of all cell values; a move
with moved=false leaves the grid total unchanged, and a move with moved=true
yields a post-spawn total equal to the pre-move total plus the spawned value,
which is 2 or 4. -/
theorem c10_sum_conservation (g : List Nat) (b : Bool) (d : Direction) (r1 r2 : ℚ)
    (h16 : g.length = 16) (hr0 : 0 ≤ r1) (hr1 : r1 < 1) :
    (newGridOf g d).sum = g.sum ∧
    ((move b g d r1 r2).moved = false → (move b g d r1 r2).grid.sum = g.sum) ∧
    ((move b g d r1 r2).moved = true →
      (move b g d r1 r2).grid.sum = g.sum + spawnValue r2 ∧
        (spawnValue r2 = 2 ∨ spawnValue r2 = 4)) := by
  refine ⟨newGrid_sum g d h16, ?_, ?_⟩
  · intro hmv
    cases b with
    | true => rfl
    | false =>
      by_cases hm : movedFlag g d
      · simp [move, hm] at hmv
      · simp [move, hm]
  · intro hmv
    cases b with
    | true => simp [move] at hmv
    | false =>
      by_cases hm : movedFlag g d
      · have hz : 0 ∈ newGridOf g d := newGrid_zero_mem_of_moved g d hm
        obtain ⟨idx, _, hlt, hzero, heq⟩ := addNewTile_spec r1 r2 hz hr0 hr1
        have hgrid : (move false g d r1 r2).grid = addNewTile (newGridOf g d) r1 r2 := by
          simp [move, hm]
        refine ⟨?_, spawnValue_mem r2⟩
        rw [hgrid, heq, sum_set_zero (newGridOf g d) idx hlt hzero (spawnValue r2),
          newGrid_sum g d h16]
      · simp [move, hm] at hmv

theorem c10_sum_conservation_witness :
    ([0, 2, 0, 0, 0, 0, 0, 0, 0, 0, 0, 0, 0, 0, 0, 4] : List Nat).length = 16 ∧
    (0 : ℚ) ≤ 0 ∧ (0 : ℚ) < 1 ∧
    ((newGridOf [0, 2, 0, 0, 0, 0, 0, 0, 0, 0, 0, 0, 0, 0, 0, 4] .left).sum =
        ([0, 2, 0, 0, 0, 0, 0, 0, 0, 0, 0, 0, 0, 0, 0, 4] : List Nat).sum ∧
      ((move false [0, 2, 0, 0, 0, 0, 0, 0, 0, 0, 0, 0, 0, 0, 0, 4] .left 0 0).moved = false →
        (move false [0, 2, 0, 0, 0, 0, 0, 0, 0, 0, 0, 0, 0, 0, 0, 4] .left 0 0).grid.sum =
          ([0, 2, 0, 0, 0, 0, 0, 0, 0, 0, 0, 0, 0, 0, 0, 4] : List Nat).sum) ∧
      ((move false [0, 2, 0, 0, 0, 0, 0, 0, 0, 0, 0, 0, 0, 0, 0, 4] .left 0 0).moved = true →
        (move false [0, 2, 0, 0, 0, 0, 0, 0, 0, 0, 0, 0, 0, 0, 0, 4] .left 0 0).grid.sum =
          ([0, 2, 0, 0, 0, 0, 0, 0, 0, 0, 0, 0, 0, 0, 0, 4] : List Nat).sum + spawnValue 0 ∧
            (spawnValue 0 = 2 ∨ spawnValue 0 = 4))) :=
  ⟨by decide, by decide, by decide,
    c10_sum_conservation _ false .left 0 0 (by decide) (by decide) (by decide)⟩

/-- C4: when a move's flag is set, exactly one tile is spawned: the post-spawn
grid is the pre-spawn grid updated at a single index that held 0; the count of
non-zero cells rises by exactly one; every other cell is unchanged; the index
is the entry of the (ascending) empty-cell list selected by `⌊r1·len⌋`, which
equals `m` exactly when `r1 ∈ [m/len, (m+1)/len)`, so a uniform `r1` picks each
empty cell with probability `1/len`; and the value is 2 iff `r2 < 9/10`
(probability 0.9 for uniform `r2`), else 4. -/
theorem c4_spawn_after_move (g : List Nat) (d : Direction) (r1 r2 : ℚ)
    (h16 : g.length = 16) (hr0 : 0 ≤ r1) (hr1 : r1 < 1)
    (hmv : movedFlag g d = true) :
    ∃ idx,
      idx = (emptyCellsOf (newGridOf g d)).getD
          (r1 * ((emptyCellsOf (newGridOf g d)).length : ℚ)).floor.toNat 0 ∧
      (newGridOf g d).getD idx 0 = 0 ∧
      (move false g d r1 r2).grid = (newGridOf g d).set idx (spawnValue r2) ∧
      ((move false g d r1 r2).grid.countP fun v => v != 0) =
        ((newGridOf g d).countP fun v => v != 0) + 1 ∧
      (∀ k, k ≠ idx → (move false g d r1 r2).grid.getD k 0 = (newGridOf g d).getD k 0) ∧
      ((r2 < 9 / 10 → spawnValue r2 = 2) ∧ (¬ r2 < 9 / 10 → spawnValue r2 = 4)) ∧
      (∀ m, m < (emptyCellsOf (newGridOf g d)).length →
        ((r1 * ((emptyCellsOf (newGridOf g d)).length : ℚ)).floor.toNat = m ↔
          (m : ℚ) / ((emptyCellsOf (newGridOf g d)).length : ℚ) ≤ r1 ∧
            r1 < ((m : ℚ) + 1) / ((emptyCellsOf (newGridOf g d)).length : ℚ))) := by
  have hz : 0 ∈ newGridOf g d := newGrid_zero_mem_of_moved g d hmv
  obtain ⟨idx, hidx, hlt, hzero, heq⟩ := addNewTile_spec r1 r2 hz hr0 hr1
  have hgrid : (move false g d r1 r2).grid = addNewTile (newGridOf g d) r1 r2 := by
    simp [move, hmv]
  have hsv : spawnValue r2 ≠ 0 := by
    rcases spawnValue_mem r2 with h | h <;> omega
  refine ⟨idx, hidx, hzero, ?_, ?_, ?_, ⟨?_, ?_⟩, ?_⟩
  · rw [hgrid, heq]
  · rw [hgrid, heq]
    exact countP_set_zero _ idx hlt hzero _ hsv
  · intro k hk
    rw [hgrid, heq]
    exact getD_set_ne _ idx k _ hk
  · intro h
    simp [spawnValue, h]
  · intro h
    simp [spawnValue, h]
  · intro m hm2
    exact floor_frac_eq_iff (by omega) hr0

theorem c4_spawn_after_move_witness :
    ([0, 2, 0, 0, 0, 0, 0, 0, 0, 0, 0, 0, 0, 0, 0, 4] : List Nat).length = 16 ∧
    (0 : ℚ) ≤ 0 ∧ (0 : ℚ) < 1 ∧
    movedFlag [0, 2, 0, 0, 0, 0, 0, 0, 0, 0, 0, 0, 0, 0, 0, 4] .left = true ∧
    (∃ idx,
      idx = (emptyCellsOf (newGridOf [0, 2, 0, 0, 0, 0, 0, 0, 0, 0, 0, 0, 0, 0, 0, 4] .left)).getD
          ((0 : ℚ) * ((emptyCellsOf (newGridOf [0, 2, 0, 0, 0, 0, 0, 0, 0, 0, 0, 0, 0, 0, 0, 4]
            .left)).length : ℚ)).floor.toNat 0 ∧
      (newGridOf [0, 2, 0, 0, 0, 0, 0, 0, 0, 0, 0, 0, 0, 0, 0, 4] .left).getD idx 0 = 0 ∧
      (move false [0, 2, 0, 0, 0, 0, 0, 0, 0, 0, 0, 0, 0, 0, 0, 4] .left 0 0).grid =
        (newGridOf [0, 2, 0, 0, 0, 0, 0, 0, 0, 0, 0, 0, 0, 0, 0, 4] .left).set idx
          (spawnValue 0) ∧
      ((move false [0, 2, 0, 0, 0, 0, 0, 0, 0, 0, 0, 0, 0, 0, 0, 4] .left 0 0).grid.countP
          fun v => v != 0) =
        ((newGridOf [0, 2, 0, 0, 0, 0, 0, 0, 0, 0, 0, 0, 0, 0, 0, 4] .left).countP
          fun v => v != 0) + 1 ∧
      (∀ k, k ≠ idx →
        (move false [0, 2, 0, 0, 0, 0, 0, 0, 0, 0, 0, 0, 0, 0, 0, 4] .left 0 0).grid.getD k 0 =
          (newGridOf [0, 2, 0, 0, 0, 0, 0, 0, 0, 0, 0, 0, 0, 0, 0, 4] .left).getD k 0) ∧
      (((0 : ℚ) < 9 / 10 → spawnValue 0 = 2) ∧ (¬ (0 : ℚ) < 9 / 10 → spawnValue 0 = 4)) ∧
      (∀ m, m < (emptyCellsOf (newGridOf [0, 2, 0, 0, 0, 0, 0, 0, 0, 0, 0, 0, 0, 0, 0, 4]
          .left)).length →
        (((0 : ℚ) * ((emptyCellsOf (newGridOf [0, 2, 0, 0, 0, 0, 0, 0, 0, 0, 0, 0, 0, 0, 0, 4]
            .left)).length : ℚ)).floor.toNat = m ↔
          (m : ℚ) / ((emptyCellsOf (newGridOf [0, 2, 0, 0, 0, 0, 0, 0, 0, 0, 0, 0, 0, 0, 0, 4]
            .left)).length : ℚ) ≤ 0 ∧
            (0 : ℚ) < ((m : ℚ) + 1) / ((emptyCellsOf (newGridOf
              [0, 2, 0, 0, 0, 0, 0, 0, 0, 0, 0, 0, 0, 0, 0, 4] .left)).length : ℚ)))) :=
  ⟨by decide, by decide, by decide, by decide,
    c4_spawn_after_move _ _ 0 0 (by decide) (by decide) (by decide) (by decide)⟩

/-- C6: every grid reachable from `initializeGrid` by any sequence of `move`
calls has exactly `CELL_COUNT` (16) cells, and every cell value is 0 or a
power of 2 that is at least 2. -/
theorem c6_reachable_invariant (g : List Nat) (h : Reachable g) :
    g.length = CELL_COUNT ∧ ∀ v ∈ g, IsTile v := by
  induction h with
  | init r1 r2 r3 r4 h1 h2 h3 h4 h5 h6 h7 h8 =>
    constructor
    · simp [initializeGrid, addNewTile_length]
    · apply addNewTile_tiles
      apply addNewTile_tiles
      intro v hv
      rw [List.eq_of_mem_replicate hv]
      exact Or.inl rfl
  | step g b d r1 r2 h1 h2 h3 h4 hg ih =>
    obtain ⟨ihl, iht⟩ := ih
    cases b with
    | true => exact ⟨ihl, iht⟩
    | false =>
      by_cases hm : movedFlag g d
      · have hgrid : (move false g d r1 r2).grid = addNewTile (newGridOf g d) r1 r2 := by
          simp [move, hm]
        rw [hgrid]
        constructor
        · rw [addNewTile_length, newGrid_len]
        · exact addNewTile_tiles (newGrid_tiles iht d) r1 r2
      · rw [move_of_not_moved false g d r1 r2 (by simpa using hm)]
        exact ⟨ihl, iht⟩

theorem c6_reachable_invariant_witness :
    (initializeGrid 0 0 0 0).length = CELL_COUNT ∧ ∀ v ∈ initializeGrid 0 0 0 0, IsTile v :=
  c6_reachable_invariant _ (Reachable.init 0 0 0 0 (by decide) (by decide) (by decide)
    (by decide) (by decide) (by decide) (by decide) (by decide))

/-- C8 counterexample: the initialization code, run on a configuration with a
single cell (fewer than 2 cells), proceeds silently and returns the playable
grid `[2]`; nothing is recognized or reported as a configuration error — the
engine has no error channel at all. -/
theorem c8_config_counterexample : initializeGridGen 1 0 0 0 0 = [2] := by
  have he1 : emptyCellsOf [0] = [0] := by decide
  have h1 : addNewTile [0] 0 0 = [2] := by
    have hsv : spawnValue 0 = 2 := by norm_num [spawnValue]
    simp [addNewTile, he1, rat_floor_int, hsv]
  have he2 : emptyCellsOf [2] = [] := by decide
  have h2 : addNewTile [2] 0 0 = [2] := by
    simp [addNewTile, he2]
  show addNewTile (addNewTile (List.replicate 1 0) 0 0) 0 0 = [2]
  rw [show List.replicate 1 (0 : Nat) = [0] from rfl, h1, h2]

/-- C8 (amended): `initializeGrid` performs no configuration validation and
reports no error to the caller: it is a total function that always returns a
`CELL_COUNT`-cell grid, and the same code generalized to a 1-cell
configuration silently returns a 1-cell grid. -/
theorem c8_initialize_total :
    (∀ r1 r2 r3 r4 : ℚ, (initializeGrid r1 r2 r3 r4).length = CELL_COUNT) ∧
    (∀ r1 r2 r3 r4 : ℚ, (initializeGridGen 1 r1 r2 r3 r4).length = 1) := by
  constructor <;> intro r1 r2 r3 r4 <;>
    simp [initializeGrid, initializeGridGen, addNewTile_length]
